import Mathlib

/-!
# OpenSift — verification of the planner / classifier / engine pipeline

Shallow embedding of the OpenSift repository (`src/opensift`).  Python
floats are modelled as rationals (`ℚ`); Python dicts keyed by strings are
modelled as association lists with last-writer-wins lookup; exceptions are
modelled with `Except`.  Each definition is translated from the named
source function.
-/

namespace OpenSift

/-! ## Numeric helpers

Python's built-in `round(x, n)` rounds half to even (banker's rounding).
We model `round(x, 2)` and `round(x, 4)` on rationals. -/

/-- Python `round(x)` to an integer: nearest integer, ties to even. -/
def pyRoundInt (q : ℚ) : ℤ :=
  let f : ℤ := ⌊q⌋
  let r : ℚ := q - f
  if r < 1/2 then f
  else if 1/2 < r then f + 1
  else if Even f then f else f + 1

/-- Python `round(x, 2)`. -/
def round2 (q : ℚ) : ℚ := (pyRoundInt (100 * q) : ℚ) / 100

/-- Python `round(x, 4)`. -/
def round4 (q : ℚ) : ℚ := (pyRoundInt (10000 * q) : ℚ) / 10000

theorem pyRoundInt_intCast (k : ℤ) : pyRoundInt (k : ℚ) = k := by
  unfold pyRoundInt
  simp [Int.floor_intCast]

/-- `round2` fixes every rational that is already an integer multiple of
`1/100`. -/
theorem round2_div100 (k : ℤ) : round2 ((k : ℚ) / 100) = (k : ℚ) / 100 := by
  unfold round2
  rw [show (100 : ℚ) * ((k : ℚ) / 100) = (k : ℚ) by ring, pyRoundInt_intCast]

/-! ## Data model: criteria (`models/criteria.py`)

`Criterion.weight` is a pydantic field with `ge=0.0, le=1.0`; the bound
check is enforced where `Criterion(...)` is constructed
(`QueryPlanner._parse_criteria_response`). -/

/-- `models/criteria.py` — `Criterion`. -/
structure Criterion where
  criterion_id : String
  type : String
  name : String
  description : String
  weight : ℚ
deriving DecidableEq, Repr

/-- `models/criteria.py` — `CriteriaResult` (pydantic enforces
`min_length=1` on both lists; the planner's parse step checks
non-emptiness before construction). -/
structure CriteriaResult where
  search_queries : List String
  criteria : List Criterion
deriving DecidableEq, Repr

/-- Sum of the criterion weights of a `CriteriaResult`. -/
def sumWeights (cr : CriteriaResult) : ℚ := (cr.criteria.map (·.weight)).sum

/-! ## Planner (`core/planner/planner.py`) -/

/-- One entry of the raw `criteria` array of the LLM JSON response, as
consumed by `_parse_criteria_response` via `c.get(key, default)`.
A missing key is `none`. -/
structure RawCriterion where
  criterion_id : Option String
  type : Option String
  name : Option String
  description : Option String
  weight : Option ℚ
deriving DecidableEq, Repr

/-- The raw LLM JSON response consumed by `_parse_criteria_response`:
`raw.get("search_queries")` and `raw.get("criteria")`.  A missing or
non-list value is `none`. -/
structure RawResponse where
  search_queries : Option (List String)
  criteria : Option (List RawCriterion)
deriving DecidableEq, Repr

/-- `_parse_criteria_response`, per-criterion defaulting (`c.get(...)`
with defaults; `i` is the 1-based position). -/
def parseRawCriterion (i : ℕ) (c : RawCriterion) : Criterion :=
  { criterion_id := c.criterion_id.getD ("criterion_" ++ toString i)
    type := c.type.getD "topic"
    name := c.name.getD ("Criterion " ++ toString i)
    description := c.description.getD ""
    weight := c.weight.getD 0 }

/-- `_parse_criteria_response`, inner normalization (the `total_weight > 0`
branch): divide each weight by the sum rounded to 2 decimals, then adjust
the last criterion's weight by the remaining difference
`diff = 1.0 - sum(rounded)` (also rounded to 2 decimals). -/
def normalizeCriteria (cs : List Criterion) : List Criterion :=
  let W : ℚ := (cs.map (·.weight)).sum
  let rs := cs.map (fun c => { c with weight := round2 (c.weight / W) })
  match rs.getLast? with
  | none => rs
  | some last =>
      rs.dropLast ++
        [{ last with weight := round2 (last.weight + (1 - (rs.map (·.weight)).sum)) }]

/-- `_parse_criteria_response`, weight-validation block: if the weight sum
`W` satisfies `|W - 1| > 0.05` and `W > 0`, normalize; otherwise the
weights are left unchanged. -/
def applyNormalization (cs : List Criterion) : List Criterion :=
  if |(cs.map (·.weight)).sum - 1| ≤ 1/20 then cs
  else if (cs.map (·.weight)).sum ≤ 0 then cs
  else normalizeCriteria cs

/-- `_parse_criteria_response`, criteria-parsing loop
(`for i, c in enumerate(criteria_raw, start=1)`), before weight
validation/normalization. -/
def rawParsedCriteria (raw : RawResponse) : List Criterion :=
  match raw.criteria with
  | none => []
  | some crs => (crs.enumFrom 1).map (fun p => parseRawCriterion p.1 p.2)

/-- `QueryPlanner._parse_criteria_response`.  Raises (`Except.error`) on a
missing/empty `search_queries` or `criteria`, and on a criterion weight
outside pydantic's `[0, 1]` bound (`Criterion` declares
`weight: float = Field(ge=0.0, le=1.0)`, checked when each `Criterion` is
constructed). -/
def parseCriteriaResponse (raw : RawResponse) : Except String CriteriaResult :=
  match raw.search_queries with
  | none => .error "LLM response missing or invalid search_queries"
  | some qs =>
    if qs.isEmpty then .error "LLM response missing or invalid search_queries" else
    match raw.criteria with
    | none => .error "LLM response missing or invalid criteria"
    | some crs =>
      if crs.isEmpty then .error "LLM response missing or invalid criteria" else
      let cs := rawParsedCriteria raw
      if cs.all (fun c => decide (0 ≤ c.weight) && decide (c.weight ≤ 1)) then
        .ok { search_queries := qs, criteria := applyNormalization cs }
      else
        .error "criterion weight outside pydantic bound"

/-- Python `str.strip()` on a character list: drop leading and trailing
whitespace. -/
def trimChars (cs : List Char) : List Char :=
  ((cs.dropWhile Char.isWhitespace).reverse.dropWhile Char.isWhitespace).reverse

/-- Python `str.strip()`. -/
def pyStrip (s : String) : String := String.mk (trimChars s.data)

/-- Python `str.lower()` (ASCII case folding). -/
def pyLower (s : String) : String := String.mk (s.data.map Char.toLower)

/-- Helper of `pySplit`: split a character list on whitespace runs,
accumulating the current (reversed) token in `acc`. -/
def splitWsAux : List Char → List Char → List String
  | acc, [] => if acc.isEmpty then [] else [String.mk acc.reverse]
  | acc, c :: rest =>
      if c.isWhitespace then
        if acc.isEmpty then splitWsAux [] rest
        else String.mk acc.reverse :: splitWsAux [] rest
      else splitWsAux (c :: acc) rest

/-- Python `str.split()`: split on whitespace runs, dropping empties. -/
def pySplit (s : String) : List String := splitWsAux [] s.data

/-- Python `" ".join(xs)`. -/
def joinSpace : List String → String
  | [] => ""
  | [x] => x
  | x :: rest => x ++ " " ++ joinSpace rest

/-- `QueryPlanner._create_simple_result`, query-variation block. -/
def simpleQueries (query : String) : List String :=
  let tokens := pySplit query
  let queries :=
    if 4 ≤ tokens.length then
      let mid := tokens.length / 2
      [query, joinSpace (tokens.take mid), joinSpace (tokens.drop mid)]
    else if 2 ≤ tokens.length then
      [query, joinSpace tokens.reverse]
    else
      [query, query ++ " overview"]
  let unique := dedupQueries [] queries
  if unique.isEmpty then [query] else unique
where
  /-- Case-insensitive dedup on the stripped query (`seen` keys loop). -/
  dedupQueries : List String → List String → List String
  | _, [] => []
  | seen, q :: rest =>
      let key := pyLower (pyStrip q)
      if key.isEmpty ∨ key ∈ seen then dedupQueries seen rest
      else pyStrip q :: dedupQueries (key :: seen) rest

/-- `QueryPlanner._create_simple_result`. -/
def createSimpleResult (query : String) : CriteriaResult :=
  { search_queries := simpleQueries query
    criteria := [{ criterion_id := "criterion_1"
                   type := "topic"
                   name := "Query relevance"
                   description := "The result is directly relevant to: " ++ query
                   weight := 1 }] }

/-- `QueryPlanner.plan`.  `decompose` is `request.options.decompose`;
`hasClient` is whether an API key was configured (`self._llm_client` is
not `None`); `llmOut` is the outcome of `chat_json` (an `Except.error`
models any raised exception — the `except (LLMError, Exception)` handler
catches them all).  Parse failures inside `_generate_with_llm` are also
caught by that handler. -/
def plan (decompose hasClient : Bool) (llmOut : Except String RawResponse)
    (query : String) : CriteriaResult :=
  if ¬ decompose then createSimpleResult query
  else if hasClient then
    match llmOut with
    | .error _ => createSimpleResult query
    | .ok raw =>
      match parseCriteriaResponse raw with
      | .error _ => createSimpleResult query
      | .ok result => result
  else createSimpleResult query

example : (createSimpleResult "solar nowcasting").search_queries =
    ["solar nowcasting", "nowcasting solar"] := by decide

/-! ## Planner lemmas -/

theorem sum_map_round2_div100 {α : Type} (f : α → ℚ) (l : List α) :
    ∃ m : ℤ, (l.map (fun a => round2 (f a))).sum = (m : ℚ) / 100 := by
  induction l with
  | nil => exact ⟨0, by simp⟩
  | cons a t ih =>
      obtain ⟨m, hm⟩ := ih
      refine ⟨pyRoundInt (100 * f a) + m, ?_⟩
      rw [List.map_cons, List.sum_cons, hm, round2]
      push_cast
      ring

/-- The weights of `normalizeCriteria cs` are the rounded quotients with
the last entry adjusted; their sum is exactly `1` whenever `cs` is
nonempty. -/
theorem normalizeCriteria_sum (cs : List Criterion) (hne : cs ≠ []) :
    ((normalizeCriteria cs).map (·.weight)).sum = 1 := by
  unfold normalizeCriteria
  dsimp only
  split
  next hl =>
    exact absurd (List.map_eq_nil_iff.mp (List.getLast?_eq_none_iff.mp hl)) hne
  next last hl =>
    set W : ℚ := (cs.map (·.weight)).sum with hW
    set rs : List Criterion := cs.map (fun c => { c with weight := round2 (c.weight / W) })
      with hrs
    have hmap : rs.map (·.weight) = cs.map (fun c => round2 (c.weight / W)) := by
      simp [hrs, List.map_map]
    have hrsne : rs ≠ [] := by
      simp only [hrs, ne_eq, List.map_eq_nil_iff]
      exact hne
    have hsplit : rs.dropLast ++ [last] = rs :=
      List.dropLast_append_getLast? last (by rw [hl]; rfl)
    have hsum : (rs.map (·.weight)).sum
        = ((rs.dropLast.map (·.weight)).sum) + last.weight := by
      conv_lhs => rw [← hsplit]
      simp
    have hmemlast : last ∈ rs := by
      have := List.getLast?_eq_getLast_of_ne_nil hrsne
      rw [hl] at this
      have heq : last = rs.getLast hrsne := Option.some.inj this
      rw [heq]
      exact List.getLast_mem hrsne
    obtain ⟨c0, _, hc0⟩ := List.mem_map.mp (hrs ▸ hmemlast)
    have hlastw : last.weight = round2 (c0.weight / W) := by
      rw [← hc0]
    obtain ⟨m, hm⟩ : ∃ m : ℤ, (rs.map (·.weight)).sum = (m : ℚ) / 100 := by
      obtain ⟨m, hm⟩ := sum_map_round2_div100 (fun c : Criterion => c.weight / W) cs
      exact ⟨m, by rw [hmap]; exact hm⟩
    simp only [List.map_append, List.sum_append, List.map_cons, List.map_nil,
      List.sum_cons, List.sum_nil, add_zero]
    have hfix : round2 (last.weight + (1 - (rs.map (·.weight)).sum))
        = last.weight + (1 - (rs.map (·.weight)).sum) := by
      have harith : last.weight + (1 - (rs.map (·.weight)).sum)
          = ((pyRoundInt (100 * (c0.weight / W)) + 100 - m : ℤ) : ℚ) / 100 := by
        rw [hlastw, hm, round2]
        push_cast
        ring
      rw [harith, round2_div100, ← harith]
    rw [hfix]
    have hdrop : (rs.dropLast.map (·.weight)).sum
        = (rs.map (·.weight)).sum - last.weight := by
      rw [hsum]; ring
    rw [hdrop]
    ring

theorem normalizeCriteria_length (cs : List Criterion) :
    (normalizeCriteria cs).length = cs.length := by
  unfold normalizeCriteria
  dsimp only
  split
  next hl =>
    simp
  next last hl =>
    set W : ℚ := (cs.map (·.weight)).sum with hW
    set rs : List Criterion := cs.map (fun c => { c with weight := round2 (c.weight / W) })
      with hrs
    have hrsne : rs ≠ [] := by
      intro h
      rw [h] at hl
      exact Option.noConfusion hl
    have hlen : rs.length = cs.length := by simp [hrs]
    have hpos : 0 < rs.length := List.length_pos.mpr hrsne
    simp only [List.length_append, List.length_dropLast, List.length_cons,
      List.length_nil]
    omega

theorem applyNormalization_length (cs : List Criterion) :
    (applyNormalization cs).length = cs.length := by
  unfold applyNormalization
  split
  · rfl
  · split
    · rfl
    · exact normalizeCriteria_length cs

/-- Shape of a successful `_parse_criteria_response`: the queries are the
raw queries and the criteria are the parsed criteria after the
normalization block; both source arrays were nonempty. -/
theorem parseCriteriaResponse_ok (raw : RawResponse) (r : CriteriaResult)
    (h : parseCriteriaResponse raw = .ok r) :
    r.criteria = applyNormalization (rawParsedCriteria raw) ∧
      rawParsedCriteria raw ≠ [] ∧ ¬ r.search_queries.isEmpty := by
  obtain ⟨oqs, ocrs⟩ := raw
  cases oqs with
  | none => exact Except.noConfusion h
  | some qs =>
    cases ocrs with
    | none =>
        simp only [parseCriteriaResponse] at h
        split at h
        · exact Except.noConfusion h
        · exact Except.noConfusion h
    | some crs =>
        simp only [parseCriteriaResponse] at h
        split at h
        · exact Except.noConfusion h
        · split at h
          · exact Except.noConfusion h
          · split at h
            · rename_i hqs hcrs hall
              replace h := Except.ok.inj h
              subst h
              refine ⟨rfl, ?_, hqs⟩
              intro hnil
              apply hcrs
              have : crs.length = 0 := by
                have hlen := congrArg List.length hnil
                simpa [rawParsedCriteria, List.enumFrom_length] using hlen
              simpa [List.isEmpty_iff, List.length_eq_zero] using this
            · exact Except.noConfusion h

theorem simpleQueries_ne_nil (q : String) : simpleQueries q ≠ [] := by
  unfold simpleQueries
  dsimp only
  repeat' split
  all_goals simp_all

/-- C3 (counterexample): a parsed LLM response whose single criterion has
weight `0.97` is left unnormalized (`|0.97 - 1| = 0.03 ≤ 0.05`), so the
returned `CriteriaResult` has weight sum `0.97`, which differs from `1`
by more than `10⁻³`. -/
theorem planner_weight_sum_counterexample :
    parseCriteriaResponse
        { search_queries := some ["a"],
          criteria := some [{ criterion_id := none, type := none, name := none,
                              description := none, weight := some (97/100) }] }
      = .ok { search_queries := ["a"],
              criteria := [{ criterion_id := "criterion_1", type := "topic",
                             name := "Criterion 1", description := "",
                             weight := 97/100 }] } ∧
    ¬ |(97 : ℚ)/100 - 1| ≤ 1/1000 := by
  constructor
  · norm_num [parseCriteriaResponse, rawParsedCriteria, parseRawCriterion,
      applyNormalization, List.enumFrom, abs_le]
    decide
  · norm_num [abs_le]

/-- C3 (amended): for every `CriteriaResult` returned by the planner's
parse step, letting `W` be the sum of the parsed weights: if
`|W - 1| ≤ 0.05` or `W ≤ 0` the weights are returned unchanged (so the
sum may differ from `1` by up to `0.05`, or be nonpositive); if
`|W - 1| > 0.05` and `W > 0` each weight is divided by `W` and rounded to
2 decimals and the last criterion's weight is adjusted so the sum is
exactly `1`.  The heuristic fallback result always has weight sum
exactly `1`. -/
theorem planner_weight_normalization :
    (∀ raw r, parseCriteriaResponse raw = .ok r →
      (|((rawParsedCriteria raw).map (·.weight)).sum - 1| ≤ 1/20 →
          r.criteria = rawParsedCriteria raw) ∧
      (¬ |((rawParsedCriteria raw).map (·.weight)).sum - 1| ≤ 1/20 →
        (((rawParsedCriteria raw).map (·.weight)).sum ≤ 0 →
            r.criteria = rawParsedCriteria raw) ∧
        (0 < ((rawParsedCriteria raw).map (·.weight)).sum →
            sumWeights r = 1))) ∧
    (∀ q, sumWeights (createSimpleResult q) = 1) := by
  constructor
  · intro raw r h
    obtain ⟨hcrit, hne, -⟩ := parseCriteriaResponse_ok raw r h
    refine ⟨?_, fun hgt => ⟨?_, ?_⟩⟩
    · intro hle
      rw [hcrit, applyNormalization, if_pos hle]
    · intro hle0
      rw [hcrit, applyNormalization, if_neg hgt, if_pos hle0]
    · intro hpos
      rw [sumWeights, hcrit, applyNormalization, if_neg hgt,
        if_neg (not_le.mpr hpos)]
      exact normalizeCriteria_sum _ hne
  · intro q
    simp [sumWeights, createSimpleResult]

/-- Witness for `planner_weight_normalization`: a parsed response with
two criteria of weight `1.0` each (`W = 2`) is normalized to weights
`[0.5, 0.5]`, whose sum is exactly `1`. -/
theorem planner_weight_normalization_witness :
    sumWeights { search_queries := ["a"],
                 criteria := [{ criterion_id := "criterion_1", type := "topic",
                                name := "Criterion 1", description := "",
                                weight := 1/2 },
                              { criterion_id := "criterion_2", type := "topic",
                                name := "Criterion 2", description := "",
                                weight := 1/2 }] } = 1 := by
  refine ((planner_weight_normalization.1
      { search_queries := some ["a"],
        criteria := some [{ criterion_id := none, type := none, name := none,
                            description := none, weight := some 1 },
                          { criterion_id := none, type := none, name := none,
                            description := none, weight := some 1 }] }
      _ ?_).2 ?_).2 ?_
  · norm_num [parseCriteriaResponse, rawParsedCriteria, parseRawCriterion,
      applyNormalization, normalizeCriteria, List.enumFrom, round2, pyRoundInt,
      abs_le]
    decide
  · norm_num [rawParsedCriteria, parseRawCriterion, List.enumFrom, abs_le]
  · norm_num [rawParsedCriteria, parseRawCriterion, List.enumFrom]

/-- C8: the planner never raises — with decomposition disabled, with no
API key configured, with a failing LLM call, or with an unparseable LLM
response, `plan` returns the heuristic `createSimpleResult`, and on every
path the returned `CriteriaResult` has at least one query and at least
one criterion; the heuristic result has exactly one criterion of weight
`1.0`. -/
theorem planner_never_raises :
    (∀ q, (createSimpleResult q).search_queries ≠ [] ∧
        (createSimpleResult q).criteria.map (·.weight) = [1]) ∧
    (∀ d h llm q, (plan d h llm q).search_queries ≠ [] ∧
        (plan d h llm q).criteria ≠ []) ∧
    (∀ h llm q, plan false h llm q = createSimpleResult q) ∧
    (∀ d llm q, plan d false llm q = createSimpleResult q) ∧
    (∀ d h e q, plan d h (.error e) q = createSimpleResult q) ∧
    (∀ d h raw e q, parseCriteriaResponse raw = .error e →
        plan d h (.ok raw) q = createSimpleResult q) := by
  have hsimple : ∀ q, (createSimpleResult q).search_queries ≠ [] ∧
      (createSimpleResult q).criteria.map (·.weight) = [1] := by
    intro q
    exact ⟨simpleQueries_ne_nil q, rfl⟩
  refine ⟨hsimple, ?_, ?_, ?_, ?_, ?_⟩
  · intro d h llm q
    have hsq := (hsimple q).1
    have hsc : (createSimpleResult q).criteria ≠ [] := by
      simp [createSimpleResult]
    cases d with
    | false => simpa [plan] using ⟨hsq, hsc⟩
    | true =>
      cases h with
      | false => simpa [plan] using ⟨hsq, hsc⟩
      | true =>
        cases llm with
        | error e => simpa [plan] using ⟨hsq, hsc⟩
        | ok raw =>
          cases hp : parseCriteriaResponse raw with
          | error e => simpa [plan, hp] using ⟨hsq, hsc⟩
          | ok r =>
            obtain ⟨hcrit, hne, hqs⟩ := parseCriteriaResponse_ok raw r hp
            have h1 : plan true true (.ok raw) q = r := by
              simp [plan, hp]
            rw [h1]
            constructor
            · simpa [List.isEmpty_iff] using hqs
            · rw [hcrit]
              intro hnil
              have := congrArg List.length hnil
              rw [applyNormalization_length] at this
              exact hne (List.length_eq_zero.mp this)
  · intro h llm q
    simp [plan]
  · intro d llm q
    cases d <;> simp [plan]
  · intro d h e q
    cases d <;> cases h <;> simp [plan]
  · intro d h raw e q hp
    cases d <;> cases h <;> simp [plan, hp]

/-- Witness for `planner_never_raises`: at a concrete unparseable raw
response (missing `search_queries`), `plan` falls back to the heuristic
result. -/
theorem planner_never_raises_witness :
    plan true true (.ok { search_queries := none, criteria := none }) "q"
      = createSimpleResult "q" := by
  exact planner_never_raises.2.2.2.2.2 true true
    { search_queries := none, criteria := none }
    "LLM response missing or invalid search_queries" "q" (by rfl)

/-! ## Data model: assessments (`models/assessment.py`) -/

/-- `models/assessment.py` — `AssessmentType` (closed enum). -/
inductive AssessmentType where
  | support
  | reject
  | somewhat_support
  | insufficient_information
deriving DecidableEq, Repr

/-- `models/assessment.py` — `ResultClassification`.  The Python member
`PARTIAL` is embedded as `partialMatch` because its lower-case name is a
reserved word in Lean. -/
inductive ResultClassification where
  | perfect
  | partialMatch
  | reject
deriving DecidableEq, Repr

/-- `models/assessment.py` — `Evidence`. -/
structure Evidence where
  source : String
  text : String
deriving DecidableEq, Repr

/-- `models/assessment.py` — `CriterionAssessment`. -/
structure CriterionAssessment where
  criterion_id : String
  assessment : AssessmentType
  explanation : String
  evidence : List Evidence := []
deriving DecidableEq, Repr

/-- `models/assessment.py` — `ValidationResult`. -/
structure ValidationResult where
  criteria_assessment : List CriterionAssessment
  summary : String
deriving DecidableEq, Repr

/-- `models/result.py` — `ResultItem`.  Python dicts of string fields are
association lists.  `source_adapter` is modelled from the spec: the spec's
data model gives `ResultItem` a `source_adapter: string` field which the
engine stamps in `_execute_searches`; the copy of `models/result.py`
under `src` does not declare it. -/
structure ResultItem where
  result_type : String := "generic"
  title : String := "N/A"
  content : String := "N/A"
  source_url : String := "N/A"
  fields : List (String × String) := []
  source_adapter : String := ""
deriving DecidableEq, Repr

/-- `models/assessment.py` — `ScoredResult` (its `result` field holds
`item.model_dump()`, i.e. the item's data). -/
structure ScoredResult where
  result : ResultItem
  validation : ValidationResult
  classification : ResultClassification
  weighted_score : ℚ
deriving DecidableEq, Repr

/-! ## Classifier (`core/classifier.py`) -/

/-- The Python dict `{c.criterion_id: c for c in criteria}` followed by
`.get(cid)`: a later criterion with the same id overwrites an earlier
one. -/
def criteriaMapGet (criteria : List Criterion) (cid : String) : Option Criterion :=
  criteria.foldl (fun acc c => if c.criterion_id = cid then some c else acc) none

/-- `ResultClassifier._classify_single`. -/
def classifySingle (assessments : List CriterionAssessment) : ResultClassification :=
  match assessments with
  | [] => .reject
  | a :: _ =>
    if a.assessment = .support then .perfect
    else if a.assessment = .somewhat_support then .partialMatch
    else .reject

/-- `ResultClassifier._classify_multiple`. -/
def classifyMultiple (assessments : List CriterionAssessment)
    (criteria : List Criterion) : ResultClassification :=
  if assessments.isEmpty then .reject
  else if assessments.all (fun a => decide (a.assessment = .support)) then .perfect
  else if assessments.any (fun a =>
      (decide (a.assessment = .support) || decide (a.assessment = .somewhat_support)) &&
      (match criteriaMapGet criteria a.criterion_id with
       | some c => decide (c.type ≠ "time")
       | none => false)) then .partialMatch
  else .reject

/-- `ResultClassifier._calculate_weighted_score`, `score_map`. -/
def scoreMap : AssessmentType → ℚ
  | .support => 1
  | .somewhat_support => 1/2
  | .insufficient_information => 0
  | .reject => 0

/-- `ResultClassifier._calculate_weighted_score`.  A criterion id absent
from the map contributes weight `0.0`. -/
def calcWeightedScore (assessments : List CriterionAssessment)
    (criteria : List Criterion) : ℚ :=
  min 1 (assessments.foldl
    (fun total a =>
      total + scoreMap a.assessment *
        (match criteriaMapGet criteria a.criterion_id with
         | some c => c.weight
         | none => 0))
    0)

/-- `ResultClassifier.classify`. -/
def classify (item : ResultItem) (validation : ValidationResult)
    (criteria : List Criterion) : ScoredResult :=
  let assessments := validation.criteria_assessment
  { result := item
    validation := validation
    classification :=
      if criteria.length = 1 then classifySingle assessments
      else classifyMultiple assessments criteria
    weighted_score := round4 (calcWeightedScore assessments criteria) }

/-- `ResultClassifier.classify_batch` sort key priority. -/
def classPriority : ResultClassification → ℕ
  | .perfect => 0
  | .partialMatch => 1
  | .reject => 2

/-- `ResultClassifier.classify_batch`: classify pairwise (Python
`zip(strict=True)` requires equal lengths, which the engine guarantees),
then stable-sort ascending by `(priority, -weighted_score)`. -/
def classifyBatch (items : List ResultItem) (validations : List ValidationResult)
    (criteria : List Criterion) : List ScoredResult :=
  ((items.zip validations).map (fun p => classify p.1 p.2 criteria)).mergeSort
    (fun s t =>
      decide (classPriority s.classification < classPriority t.classification) ||
      (decide (classPriority s.classification = classPriority t.classification) &&
        decide (t.weighted_score ≤ s.weighted_score)))

/-! ## Classifier lemmas -/

theorem matchGet_eq_true_iff (criteria : List Criterion) (cid : String) :
    ((match criteriaMapGet criteria cid with
      | some c => decide (c.type ≠ "time")
      | none => false) = true)
      ↔ ∃ c, criteriaMapGet criteria cid = some c ∧ c.type ≠ "time" := by
  cases h : criteriaMapGet criteria cid <;> simp [h]

/-- The classifier's "partial" condition as a proposition: some
support/somewhat_support assessment belongs (via the criteria map) to a
criterion whose type is not `"time"`. -/
def hasNonTimeSupport (assessments : List CriterionAssessment)
    (criteria : List Criterion) : Prop :=
  ∃ a ∈ assessments,
    (a.assessment = .support ∨ a.assessment = .somewhat_support) ∧
    ∃ c, criteriaMapGet criteria a.criterion_id = some c ∧ c.type ≠ "time"

theorem any_nonTime_iff (assessments : List CriterionAssessment)
    (criteria : List Criterion) :
    (assessments.any (fun a =>
      (decide (a.assessment = .support) || decide (a.assessment = .somewhat_support)) &&
      (match criteriaMapGet criteria a.criterion_id with
       | some c => decide (c.type ≠ "time")
       | none => false)) = true)
      ↔ hasNonTimeSupport assessments criteria := by
  rw [List.any_eq_true]
  unfold hasNonTimeSupport
  constructor
  · rintro ⟨a, ha, hcond⟩
    rw [Bool.and_eq_true, Bool.or_eq_true, decide_eq_true_eq, decide_eq_true_eq,
      matchGet_eq_true_iff] at hcond
    exact ⟨a, ha, hcond.1, hcond.2⟩
  · rintro ⟨a, ha, h1, h2⟩
    refine ⟨a, ha, ?_⟩
    rw [Bool.and_eq_true, Bool.or_eq_true, decide_eq_true_eq, decide_eq_true_eq,
      matchGet_eq_true_iff]
    exact ⟨h1, h2⟩

/-- C5: over more than one criterion, when not all assessments are
support, the classification is partial iff some support/somewhat_support
assessment belongs to a non-`"time"` criterion, and reject otherwise;
and Scenario D (`[time w=0.3, topic w=0.7]` with `[support, reject]`)
classifies as reject with weighted score `0.3`. -/
theorem classifier_multi_partial_iff :
    (∀ (item : ResultItem) (validation : ValidationResult)
        (criteria : List Criterion),
      1 < criteria.length →
      ¬ (∀ a ∈ validation.criteria_assessment, a.assessment = .support) →
      (((classify item validation criteria).classification = .partialMatch) ↔
        hasNonTimeSupport validation.criteria_assessment criteria) ∧
      (((classify item validation criteria).classification = .reject) ↔
        ¬ hasNonTimeSupport validation.criteria_assessment criteria)) ∧
    ((classify {}
        { criteria_assessment :=
            [{ criterion_id := "criterion_1", assessment := .support, explanation := "" },
             { criterion_id := "criterion_2", assessment := .reject, explanation := "" }],
          summary := "" }
        [{ criterion_id := "criterion_1", type := "time", name := "Recency",
           description := "", weight := 3/10 },
         { criterion_id := "criterion_2", type := "topic", name := "Topic",
           description := "", weight := 7/10 }]).classification = .reject ∧
     (classify {}
        { criteria_assessment :=
            [{ criterion_id := "criterion_1", assessment := .support, explanation := "" },
             { criterion_id := "criterion_2", assessment := .reject, explanation := "" }],
          summary := "" }
        [{ criterion_id := "criterion_1", type := "time", name := "Recency",
           description := "", weight := 3/10 },
         { criterion_id := "criterion_2", type := "topic", name := "Topic",
           description := "", weight := 7/10 }]).weighted_score = 3/10) := by
  constructor
  · intro item validation criteria hlen hns
    have hne : validation.criteria_assessment ≠ [] := by
      intro h
      exact hns (by simp [h])
    have hlen1 : criteria.length ≠ 1 := by omega
    have hcls : (classify item validation criteria).classification
        = classifyMultiple validation.criteria_assessment criteria := by
      simp [classify, hlen1]
    have hallfalse :
        ¬ ((validation.criteria_assessment.all
            (fun a => decide (a.assessment = .support))) = true) := by
      intro hall
      exact hns (by simpa [List.all_eq_true] using hall)
    rw [hcls]
    unfold classifyMultiple
    rw [if_neg (by simpa [List.isEmpty_iff] using hne), if_neg hallfalse]
    by_cases hb : (validation.criteria_assessment.any (fun a =>
        (decide (a.assessment = .support) || decide (a.assessment = .somewhat_support)) &&
        (match criteriaMapGet criteria a.criterion_id with
         | some c => decide (c.type ≠ "time")
         | none => false)) = true)
    · rw [if_pos hb]
      have hE := (any_nonTime_iff _ _).mp hb
      constructor
      · exact ⟨fun _ => hE, fun _ => rfl⟩
      · constructor
        · intro h
          exact absurd h (by simp)
        · intro h
          exact absurd hE h
    · rw [if_neg hb]
      have hnE : ¬ hasNonTimeSupport validation.criteria_assessment criteria :=
        fun hE => hb ((any_nonTime_iff _ _).mpr hE)
      constructor
      · constructor
        · intro h
          exact absurd h (by simp)
        · intro h
          exact absurd h hnE
      · exact ⟨fun _ => hnE, fun _ => rfl⟩
  · constructor
    · rfl
    · have hsc : calcWeightedScore
          [{ criterion_id := "criterion_1", assessment := .support, explanation := "" },
           { criterion_id := "criterion_2", assessment := .reject, explanation := "" }]
          [{ criterion_id := "criterion_1", type := "time", name := "Recency",
             description := "", weight := 3/10 },
           { criterion_id := "criterion_2", type := "topic", name := "Topic",
             description := "", weight := 7/10 }] = 3/10 := by
        simp [calcWeightedScore, criteriaMapGet, scoreMap]
        norm_num
      simp only [classify, hsc]
      norm_num [round4, pyRoundInt]

/-- Witness for `classifier_multi_partial_iff`: Scenario D itself — two
criteria, assessments `[support, reject]` (not all support), and the only
support belongs to the `"time"` criterion, so the classification is
reject. -/
theorem classifier_multi_partial_iff_witness :
    (classify {}
        { criteria_assessment :=
            [{ criterion_id := "criterion_1", assessment := .support, explanation := "" },
             { criterion_id := "criterion_2", assessment := .reject, explanation := "" }],
          summary := "" }
        [{ criterion_id := "criterion_1", type := "time", name := "Recency",
           description := "", weight := 3/10 },
         { criterion_id := "criterion_2", type := "topic", name := "Topic",
           description := "", weight := 7/10 }]).classification = .reject := by
  refine ((classifier_multi_partial_iff.1 {}
      { criteria_assessment :=
          [{ criterion_id := "criterion_1", assessment := .support, explanation := "" },
           { criterion_id := "criterion_2", assessment := .reject, explanation := "" }],
        summary := "" }
      [{ criterion_id := "criterion_1", type := "time", name := "Recency",
         description := "", weight := 3/10 },
       { criterion_id := "criterion_2", type := "topic", name := "Topic",
         description := "", weight := 7/10 }]
      (by norm_num) ?_).2).mpr ?_
  · intro hall
    have h2 := hall ⟨"criterion_2", .reject, "", []⟩ (by simp)
    exact absurd h2 (by decide)
  · rintro ⟨a, ha, h1, c, hc, hct⟩
    simp only [List.mem_cons, List.mem_singleton, List.not_mem_nil] at ha
    rcases ha with rfl | rfl | hfalse
    · have hcval : c = ⟨"criterion_1", "time", "Recency", "", 3/10⟩ := by
        rw [criteriaMapGet] at hc
        simpa using hc.symm
      rw [hcval] at hct
      exact hct rfl
    · rcases h1 with h1 | h1 <;> exact absurd h1 (by decide)
    · exact hfalse

/-- C9: an empty `criteria_assessment` list classifies as reject with
weighted score `0.0`, for every criteria list (both the single-criterion
and the multi-criterion branch). -/
theorem classifier_empty_assessments (item : ResultItem)
    (validation : ValidationResult) (criteria : List Criterion)
    (h : validation.criteria_assessment = []) :
    (classify item validation criteria).classification = .reject ∧
    (classify item validation criteria).weighted_score = 0 := by
  constructor
  · by_cases hl : criteria.length = 1
    · simp [classify, hl, h, classifySingle]
    · simp [classify, hl, h, classifyMultiple]
  · norm_num [classify, calcWeightedScore, h, round4, pyRoundInt]

/-! ## Engine, complete mode (`core/engine.py`, `OpenSiftEngine.search`)

The response shape is `models/response.py`.  The verifier module
(`core/verifier.py`) is not under `src`; per the spec (§4.4) its
`verify_batch` produces one `ValidationResult` per item in item order and
per-item failures degrade internally, so it is modelled as mapping an
abstract per-item `validate` function over the items. -/

/-- `models/response.py` — `RawVerifiedResult` (its `result` field holds
`item.model_dump()`). -/
structure RawVerifiedResult where
  result : ResultItem
  validation : ValidationResult
deriving DecidableEq, Repr

/-- `models/response.py` — `SearchResponse`.  Note: the model declares
`perfect_results`, `partial_results`, `rejected_count`, `raw_results` —
but no `rejected_results` field. -/
structure SearchResponse where
  request_id : String
  status : String := "completed"
  processing_time_ms : ℤ := 0
  query : String
  criteria_result : CriteriaResult
  perfect_results : List ScoredResult := []
  partial_results : List ScoredResult := []
  rejected_count : ℕ := 0
  raw_results : List RawVerifiedResult := []
  total_scanned : ℕ := 0
deriving Repr

/-- Modelled from the spec: `EvidenceVerifier._fallback_validation`
(`core/verifier.py` is not under `src`; §4.4): one
`insufficient_information` assessment per criterion, empty explanation and
evidence, summary `"Verification failed."`. -/
def fallbackValidation (criteria : List Criterion) : ValidationResult :=
  { criteria_assessment := criteria.map (fun c =>
      { criterion_id := c.criterion_id
        assessment := .insufficient_information
        explanation := ""
        evidence := [] })
    summary := "Verification failed." }

/-- `OpenSiftEngine.search`, stages 2-5 (planning, `request_id`
generation and wall-clock timing abstracted into parameters; `items` is
the outcome of `_execute_searches`).  When `classify` is true, the Python
code passes `rejected_results=rejected` to `SearchResponse(...)`, but the
pydantic model declares no such field and its default config ignores
unknown keyword arguments, so the rejected items are dropped from the
response. -/
def engineSearch (request_id query : String) (verify classify : Bool)
    (criteria_result : CriteriaResult) (items : List ResultItem)
    (validate : ResultItem → ValidationResult) : SearchResponse :=
  if items.isEmpty then
    { request_id := request_id, status := "no_results", query := query
      criteria_result := criteria_result, total_scanned := 0 }
  else
    let validations :=
      if verify then items.map validate
      else items.map (fun _ => fallbackValidation criteria_result.criteria)
    if classify then
      let scored := classifyBatch items validations criteria_result.criteria
      let perfectR := scored.filter (fun r => decide (r.classification = .perfect))
      let partialR := scored.filter (fun r => decide (r.classification = .partialMatch))
      let rejectedR := scored.filter (fun r => decide (r.classification = .reject))
      { request_id := request_id, status := "completed", query := query
        criteria_result := criteria_result
        perfect_results := perfectR
        partial_results := partialR
        rejected_count := rejectedR.length
        total_scanned := items.length }
    else
      { request_id := request_id, status := "completed", query := query
        criteria_result := criteria_result
        raw_results := (items.zip validations).map (fun p => ⟨p.1, p.2⟩)
        total_scanned := items.length }

theorem classifyBatch_length (items : List ResultItem)
    (validations : List ValidationResult) (criteria : List Criterion)
    (h : validations.length = items.length) :
    (classifyBatch items validations criteria).length = items.length := by
  unfold classifyBatch
  rw [(List.mergeSort_perm _ _).length_eq]
  rw [List.length_map, List.length_zip, h, Nat.min_self]

theorem filter_classification_partition (l : List ScoredResult) :
    (l.filter (fun r => decide (r.classification = .perfect))).length +
    (l.filter (fun r => decide (r.classification = .partialMatch))).length +
    (l.filter (fun r => decide (r.classification = .reject))).length
      = l.length := by
  induction l with
  | nil => simp
  | cons r t ih =>
      simp only [List.filter_cons]
      cases hr : r.classification <;> simp [hr] <;> omega

/-- C2: in complete mode with `classify` true and at least one retrieved
item, the response carries only perfect and partial results (every member
of those lists has the respective classification), no raw results, and
the rejected items appear only as `rejected_count`, with
`|perfect| + |partial| + rejected_count = total_scanned = |items|`. -/
theorem engine_search_discards_rejected (request_id query : String)
    (verify : Bool) (cr : CriteriaResult) (items : List ResultItem)
    (validate : ResultItem → ValidationResult) (hne : items ≠ []) :
    (∀ s ∈ (engineSearch request_id query verify true cr items validate).perfect_results,
        s.classification = .perfect) ∧
    (∀ s ∈ (engineSearch request_id query verify true cr items validate).partial_results,
        s.classification = .partialMatch) ∧
    (engineSearch request_id query verify true cr items validate).raw_results = [] ∧
    (engineSearch request_id query verify true cr items validate).perfect_results.length +
      (engineSearch request_id query verify true cr items validate).partial_results.length +
      (engineSearch request_id query verify true cr items validate).rejected_count
      = (engineSearch request_id query verify true cr items validate).total_scanned ∧
    (engineSearch request_id query verify true cr items validate).total_scanned
      = items.length := by
  have hni : ¬ items.isEmpty = true := by simpa [List.isEmpty_iff] using hne
  unfold engineSearch
  rw [if_neg hni]
  dsimp only
  refine ⟨?_, ?_, rfl, ?_, rfl⟩
  · intro s hs
    simpa using (List.mem_filter.mp hs).2
  · intro s hs
    simpa using (List.mem_filter.mp hs).2
  · have hlen : (if verify = true then items.map validate
        else items.map (fun _ => fallbackValidation cr.criteria)).length
        = items.length := by
      cases verify <;> simp
    rw [if_pos (Eq.refl true)]
    dsimp only
    rw [filter_classification_partition, classifyBatch_length _ _ _ hlen]

/-- Witness for `engine_search_discards_rejected`: one concrete item
whose validation rejects it. -/
theorem engine_search_discards_rejected_witness :
    (∀ s ∈ (engineSearch "req_0" "q" true true (createSimpleResult "q")
        [{ title := "A" }]
        (fun _ => { criteria_assessment :=
            [{ criterion_id := "criterion_1", assessment := .reject,
               explanation := "" }], summary := "" })).perfect_results,
        s.classification = .perfect) ∧
    (∀ s ∈ (engineSearch "req_0" "q" true true (createSimpleResult "q")
        [{ title := "A" }]
        (fun _ => { criteria_assessment :=
            [{ criterion_id := "criterion_1", assessment := .reject,
               explanation := "" }], summary := "" })).partial_results,
        s.classification = .partialMatch) ∧
    (engineSearch "req_0" "q" true true (createSimpleResult "q")
        [{ title := "A" }]
        (fun _ => { criteria_assessment :=
            [{ criterion_id := "criterion_1", assessment := .reject,
               explanation := "" }], summary := "" })).raw_results = [] ∧
    (engineSearch "req_0" "q" true true (createSimpleResult "q")
        [{ title := "A" }]
        (fun _ => { criteria_assessment :=
            [{ criterion_id := "criterion_1", assessment := .reject,
               explanation := "" }], summary := "" })).perfect_results.length +
      (engineSearch "req_0" "q" true true (createSimpleResult "q")
        [{ title := "A" }]
        (fun _ => { criteria_assessment :=
            [{ criterion_id := "criterion_1", assessment := .reject,
               explanation := "" }], summary := "" })).partial_results.length +
      (engineSearch "req_0" "q" true true (createSimpleResult "q")
        [{ title := "A" }]
        (fun _ => { criteria_assessment :=
            [{ criterion_id := "criterion_1", assessment := .reject,
               explanation := "" }], summary := "" })).rejected_count
      = (engineSearch "req_0" "q" true true (createSimpleResult "q")
        [{ title := "A" }]
        (fun _ => { criteria_assessment :=
            [{ criterion_id := "criterion_1", assessment := .reject,
               explanation := "" }], summary := "" })).total_scanned ∧
    (engineSearch "req_0" "q" true true (createSimpleResult "q")
        [{ title := "A" }]
        (fun _ => { criteria_assessment :=
            [{ criterion_id := "criterion_1", assessment := .reject,
               explanation := "" }], summary := "" })).total_scanned = 1 :=
  engine_search_discards_rejected "req_0" "q" true (createSimpleResult "q")
    [{ title := "A" }]
    (fun _ => { criteria_assessment :=
        [{ criterion_id := "criterion_1", assessment := .reject,
           explanation := "" }], summary := "" })
    (by simp)

/-! ## Adapter registry (`adapters/base/registry.py`) and search fan-out
(`core/engine.py`, `OpenSiftEngine._execute_searches`)

An adapter is modelled by its name and its per-query search outcome
(`search_papers`/`search_and_normalize` followed by the conversion to
`ResultItem` — `to_result_item` / `_doc_to_result_item` — is abstracted
into one function; a raised exception, gathered by `asyncio.gather ..
return_exceptions=True`, is an `Except.error`).  `maxResults` is
`options.max_results`, passed through to the adapter as a hint. -/

/-- An initialized adapter instance, as seen by `_execute_searches`. -/
structure Adapter where
  name : String
  search : String → ℕ → Except String (List ResultItem)

/-- `AdapterRegistry` state: `self._instances`, a Python dict keyed by
name — an insertion-ordered association list.  (`self._classes` plays no
role in the claims and is omitted.) -/
structure Registry where
  instances : List (String × Adapter)

/-- `AdapterRegistry.active_adapters` (`list(self._instances.keys())`). -/
def activeAdapters (reg : Registry) : List String := reg.instances.map (·.1)

/-- Modelled from the spec: `AdapterRegistry.get_adapters(names)` — the
engine calls `self.adapter_registry.get_adapters(request.options.adapters)`
but the `AdapterRegistry` class under `src` does not define this method;
§4.2: "`get_adapters(names)` returns the requested subset, or all active
instances when `names` is empty; order is deterministic (insertion
order)."  A `None`/absent `options.adapters` is the empty list. -/
def getAdapterPairs (reg : Registry) (names : List String) : List (String × Adapter) :=
  if names.isEmpty then reg.instances
  else reg.instances.filter (fun p => decide (p.1 ∈ names))

/-- The adapter instances returned by `get_adapters`. -/
def getAdapters (reg : Registry) (names : List String) : List Adapter :=
  (getAdapterPairs reg names).map (·.2)

/-- `AdapterRegistry.shutdown_all`: shut each instance down (an exception
is caught and logged — `true` records a success log line, `false` a
warning), then clear the instance dict unconditionally. -/
def shutdownAll (reg : Registry) (outcome : Adapter → Except Unit Unit) :
    Registry × List Bool :=
  ({ instances := [] },
   reg.instances.map (fun p =>
     match outcome p.2 with
     | .ok _ => true
     | .error _ => false))

/-- The engine's dedup key: `item.title.strip().lower()`. -/
def titleKey (it : ResultItem) : String := pyLower (pyStrip it.title)

/-- `_execute_searches`, dedup loop: walk the converted items in task
order, keeping an item only when its title key has not been seen
(`seen_titles` set; first writer wins). -/
def dedupeByTitle : List String → List ResultItem → List ResultItem
  | _, [] => []
  | seen, it :: rest =>
      if titleKey it ∈ seen then dedupeByTitle seen rest
      else it :: dedupeByTitle (titleKey it :: seen) rest

/-- `_execute_searches`, fan-out and conversion: one task per
adapter × query (adapter outer loop, query inner loop, matching the
Python loop nesting; `asyncio.gather` preserves task order), failed tasks
contribute no items, successful items are stamped with
`source_adapter = adapter.name`. -/
def fanoutUnion (adapters : List Adapter) (queries : List String)
    (maxResults : ℕ) : List ResultItem :=
  (adapters.flatMap (fun a => queries.map (fun q => (a, q)))).flatMap
    (fun t =>
      match t.1.search t.2 maxResults with
      | .error _ => []
      | .ok items => items.map (fun it => { it with source_adapter := t.1.name }))

/-- `_execute_searches` on a list of adapters: the deduplicated union of
all per-query-per-adapter results.  No `max_results` post-trim is applied
to the deduplicated union. -/
def executeSearchesOn (adapters : List Adapter) (queries : List String)
    (maxResults : ℕ) : List ResultItem :=
  dedupeByTitle [] (fanoutUnion adapters queries maxResults)

/-- `OpenSiftEngine._execute_searches`: obtain the selected adapters from
the registry via `get_adapters`, then fan out and deduplicate.  (The
`try/except` around the `get_adapters` call is unreachable in this model
because `getAdapters` is total.) -/
def executeSearches (reg : Registry) (names : List String)
    (queries : List String) (maxResults : ℕ) : List ResultItem :=
  executeSearchesOn (getAdapters reg names) queries maxResults

/-! ## Registry and fan-out lemmas -/

theorem mem_dedupeByTitle (l : List ResultItem) :
    ∀ (seen : List String) (x : ResultItem),
    x ∈ dedupeByTitle seen l ↔ titleKey x ∉ seen ∧
      l.find? (fun y => decide (titleKey y = titleKey x)) = some x := by
  induction l with
  | nil => intro seen x; simp [dedupeByTitle]
  | cons it rest ih =>
      intro seen x
      by_cases hk : titleKey it ∈ seen
      · rw [dedupeByTitle, if_pos hk, ih]
        by_cases hxy : titleKey it = titleKey x
        · constructor
          · rintro ⟨h1, -⟩
            exact absurd (hxy ▸ hk) h1
          · rintro ⟨h1, -⟩
            exact absurd (hxy ▸ hk) h1
        · rw [List.find?_cons_of_neg _ (by simpa using hxy)]
      · rw [dedupeByTitle, if_neg hk]
        by_cases hxy : titleKey it = titleKey x
        · rw [List.find?_cons_of_pos _ (by simpa using hxy)]
          simp only [List.mem_cons, ih]
          constructor
          · rintro (rfl | ⟨h1, -⟩)
            · exact ⟨hxy ▸ hk, rfl⟩
            · exact absurd (by simp [hxy]) h1
          · rintro ⟨-, h2⟩
            exact Or.inl (Option.some.inj h2).symm
        · rw [List.find?_cons_of_neg _ (by simpa using hxy)]
          simp only [List.mem_cons, ih]
          constructor
          · rintro (rfl | ⟨h1, h2⟩)
            · exact absurd rfl hxy
            · exact ⟨fun hx => h1 (by simp [hx]), h2⟩
          · rintro ⟨h1, h2⟩
            refine Or.inr ⟨?_, h2⟩
            simp only [List.mem_cons, not_or]
            exact ⟨fun he => hxy he.symm, h1⟩

theorem dedupeByTitle_sublist (l : List ResultItem) :
    ∀ seen : List String, (dedupeByTitle seen l).Sublist l := by
  induction l with
  | nil => intro seen; simp [dedupeByTitle]
  | cons it rest ih =>
      intro seen
      rw [dedupeByTitle]
      split
      · exact (ih seen).trans (List.sublist_cons_self it rest)
      · exact (ih (titleKey it :: seen)).cons₂ it

theorem dedupeByTitle_keys_nodup (l : List ResultItem) :
    ∀ seen : List String, ((dedupeByTitle seen l).map titleKey).Nodup := by
  induction l with
  | nil => intro seen; simp [dedupeByTitle]
  | cons it rest ih =>
      intro seen
      rw [dedupeByTitle]
      split
      · exact ih seen
      · rw [List.map_cons, List.nodup_cons]
        refine ⟨?_, ih (titleKey it :: seen)⟩
        intro hmem
        obtain ⟨y, hy, hyk⟩ := List.mem_map.mp hmem
        have := ((mem_dedupeByTitle rest (titleKey it :: seen) y).mp hy).1
        exact this (by simp [hyk])

theorem dedupeByTitle_covers (l : List ResultItem) :
    ∀ (seen : List String) (x : ResultItem), x ∈ l → titleKey x ∉ seen →
      ∃ y ∈ dedupeByTitle seen l, titleKey y = titleKey x := by
  induction l with
  | nil => intro seen x hx; exact absurd hx (List.not_mem_nil x)
  | cons it rest ih =>
      intro seen x hx hseen
      rw [dedupeByTitle]
      by_cases hk : titleKey it ∈ seen
      · rw [if_pos hk]
        rcases List.mem_cons.mp hx with rfl | hx'
        · exact absurd hk hseen
        · exact ih seen x hx' hseen
      · rw [if_neg hk]
        by_cases hxy : titleKey it = titleKey x
        · exact ⟨it, List.mem_cons_self it _, hxy⟩
        · rcases List.mem_cons.mp hx with rfl | hx'
          · exact absurd rfl hxy
          · obtain ⟨y, hy, hyk⟩ := ih (titleKey it :: seen) x hx'
              (by simp only [List.mem_cons, not_or]; exact ⟨fun h => hxy h.symm, hseen⟩)
            exact ⟨y, List.mem_cons_of_mem it hy, hyk⟩

/-- C1: `get_adapters` returns all active instances (in insertion order)
when `names` is empty; otherwise the requested subset, in insertion order
(a sublist of the instance list, containing exactly the instances whose
name was requested); and `_execute_searches` obtains its adapters through
`get_adapters`. -/
theorem get_adapters_spec :
    (∀ reg : Registry, getAdapters reg [] = reg.instances.map (·.2)) ∧
    (∀ (reg : Registry) (names : List String),
        (getAdapterPairs reg names).Sublist reg.instances) ∧
    (∀ (reg : Registry) (names : List String) (p : String × Adapter),
        p ∈ reg.instances →
        (p ∈ getAdapterPairs reg names ↔ (names = [] ∨ p.1 ∈ names))) ∧
    (∀ (reg : Registry) (names queries : List String) (maxResults : ℕ),
        executeSearches reg names queries maxResults
          = executeSearchesOn (getAdapters reg names) queries maxResults) := by
  refine ⟨?_, ?_, ?_, ?_⟩
  · intro reg
    rfl
  · intro reg names
    unfold getAdapterPairs
    split
    · exact List.Sublist.refl _
    · exact List.filter_sublist _
  · intro reg names p hp
    unfold getAdapterPairs
    split
    · next hni => simp [List.isEmpty_iff.mp hni, hp]
    · next hni =>
        rw [List.mem_filter]
        have : names ≠ [] := by simpa [List.isEmpty_iff] using hni
        simp [hp, this]
  · intro reg names queries maxResults
    rfl

/-- Witness for `get_adapters_spec`: a concrete two-adapter registry where
requesting one name yields exactly that instance. -/
theorem get_adapters_spec_witness :
    (⟨"a1", ⟨"a1", fun _ _ => .ok []⟩⟩ : String × Adapter) ∈
      getAdapterPairs
        { instances := [⟨"a1", ⟨"a1", fun _ _ => .ok []⟩⟩,
                        ⟨"a2", ⟨"a2", fun _ _ => .ok []⟩⟩] }
        ["a1"] :=
  (get_adapters_spec.2.2.1
      { instances := [⟨"a1", ⟨"a1", fun _ _ => .ok []⟩⟩,
                      ⟨"a2", ⟨"a2", fun _ _ => .ok []⟩⟩] }
      ["a1"] ⟨"a1", ⟨"a1", fun _ _ => .ok []⟩⟩
      (by simp)).mpr (Or.inr (by simp))

/-- C7: `_execute_searches` returns the union of all per-query-per-adapter
results deduplicated by case-insensitive trimmed title with the first
writer winning — an item is in the output iff it is the first element of
the task-ordered union with its title key; output keys are distinct, the
output is a sublist of the union (no reordering), every union item's key
is represented, and no `max_results` post-trim is applied (a concrete
fan-out with `max_results = 1` whose adapter returns two distinctly
titled items yields both). -/
theorem execute_searches_dedup_union :
    (∀ (reg : Registry) (names queries : List String) (mr : ℕ),
        executeSearches reg names queries mr
          = dedupeByTitle [] (fanoutUnion (getAdapters reg names) queries mr)) ∧
    (∀ (adapters : List Adapter) (queries : List String) (mr : ℕ)
        (x : ResultItem),
        x ∈ executeSearchesOn adapters queries mr ↔
          (fanoutUnion adapters queries mr).find?
              (fun y => decide (titleKey y = titleKey x)) = some x) ∧
    (∀ (adapters : List Adapter) (queries : List String) (mr : ℕ),
        (executeSearchesOn adapters queries mr).Sublist
          (fanoutUnion adapters queries mr)) ∧
    (∀ (adapters : List Adapter) (queries : List String) (mr : ℕ),
        ((executeSearchesOn adapters queries mr).map titleKey).Nodup) ∧
    (∀ (adapters : List Adapter) (queries : List String) (mr : ℕ)
        (x : ResultItem), x ∈ fanoutUnion adapters queries mr →
        ∃ y ∈ executeSearchesOn adapters queries mr,
          titleKey y = titleKey x) ∧
    (executeSearchesOn
        [⟨"a", fun _ _ => .ok [{ title := "A" }, { title := "B" }]⟩]
        ["q"] 1).length = 2 := by
  refine ⟨?_, ?_, ?_, ?_, ?_, ?_⟩
  · intro reg names queries mr
    rfl
  · intro adapters queries mr x
    rw [executeSearchesOn, mem_dedupeByTitle]
    simp
  · intro adapters queries mr
    exact dedupeByTitle_sublist _ []
  · intro adapters queries mr
    exact dedupeByTitle_keys_nodup _ []
  · intro adapters queries mr x hx
    exact dedupeByTitle_covers _ [] x hx (by simp)
  · rfl

/-- Witness for `execute_searches_dedup_union`: in the concrete two-item
fan-out, the first item's title key is represented in the output. -/
theorem execute_searches_dedup_union_witness :
    ∃ y ∈ executeSearchesOn
        [⟨"a", fun _ _ => .ok [{ title := "A" }, { title := "B" }]⟩]
        ["q"] 1,
      titleKey y = titleKey { title := "A", source_adapter := "a" } :=
  execute_searches_dedup_union.2.2.2.2.1
    [⟨"a", fun _ _ => .ok [{ title := "A" }, { title := "B" }]⟩]
    ["q"] 1 { title := "A", source_adapter := "a" } (by simp [fanoutUnion])

/-- C10: after `shutdown_all`, the set of active adapter instances is
empty regardless of which adapters' `shutdown()` raised (each outcome is
caught and logged — one log entry per instance — and the instance dict is
cleared unconditionally). -/
theorem shutdown_all_clears :
    (∀ (reg : Registry) (outcome : Adapter → Except Unit Unit),
        activeAdapters (shutdownAll reg outcome).1 = []) ∧
    (∀ (reg : Registry) (outcome : Adapter → Except Unit Unit),
        ((shutdownAll reg outcome).2).length = reg.instances.length) := by
  constructor <;> intro reg outcome
  · rfl
  · simp [shutdownAll]

/-! ## Engine, streaming mode (`core/engine.py`, `OpenSiftEngine.search_stream`)

The async generator is embedded as the list of events it yields.  The
planning and search stages are abstract outcomes (`Except.error` models
an exception reaching the generator's `try`); `completed` is the order in
which `asyncio.as_completed` delivers the verification tasks — an
arbitrary permutation of the retrieved items.  Verification of one item
is `verifier.verify` (abstract, one `ValidationResult` per item; the
verifier module is not under `src` and per spec §4.4 it never raises) or
`_fallback_validation` when `options.verify` is false. -/

/-- `models/response.py` — `StreamEvent`, with the payloads the engine
puts in `data`. -/
inductive StreamEvt where
  | criteria (request_id query : String) (cr : CriteriaResult)
  | searchComplete (total_results search_queries_count : ℕ)
      (results : List ResultItem)
  | result (index total : ℕ) (payload : ScoredResult ⊕ RawVerifiedResult)
  | done (request_id status : String)
      (total_scanned perfect_count partial_count rejected_count : ℕ)
  | error (request_id msg : String)
deriving DecidableEq, Repr

def isCriteriaEvt : StreamEvt → Bool
  | .criteria .. => true
  | _ => false

def isSearchCompleteEvt : StreamEvt → Bool
  | .searchComplete .. => true
  | _ => false

def isResultEvt : StreamEvt → Bool
  | .result .. => true
  | _ => false

def isDoneEvt : StreamEvt → Bool
  | .done .. => true
  | _ => false

def isErrorEvt : StreamEvt → Bool
  | .error .. => true
  | _ => false

/-- `OpenSiftEngine.search_stream`. -/
def searchStream (request_id query : String)
    (planOut : Except String CriteriaResult)
    (searchOut : Except String (List ResultItem))
    (completed : List ResultItem)
    (verify doClassify : Bool)
    (validate : ResultItem → ValidationResult) : List StreamEvt :=
  match planOut with
  | .error e => [.error request_id e]
  | .ok cr =>
    .criteria request_id query cr ::
    match searchOut with
    | .error e => [.error request_id e]
    | .ok items =>
      .searchComplete items.length cr.search_queries.length items ::
      if items.isEmpty then [.done request_id "no_results" 0 0 0 0]
      else
        let itemValidation : ResultItem → ValidationResult := fun it =>
          if verify then validate it else fallbackValidation cr.criteria
        let scoredOf : ResultItem → ScoredResult := fun it =>
          classify it (itemValidation it) cr.criteria
        let resultEvents := (completed.enumFrom 1).map (fun p =>
          StreamEvt.result p.1 items.length
            (if doClassify then .inl (scoredOf p.2)
             else .inr ⟨p.2, itemValidation p.2⟩))
        let perfect_count := if doClassify then
            (completed.filter
              (fun it => decide ((scoredOf it).classification = .perfect))).length
          else 0
        let partial_count := if doClassify then
            (completed.filter
              (fun it => decide ((scoredOf it).classification = .partialMatch))).length
          else 0
        let rejected_count := if doClassify then
            (completed.filter
              (fun it => decide ((scoredOf it).classification = .reject))).length
          else 0
        resultEvents ++
          [.done request_id "completed" items.length perfect_count
            partial_count rejected_count]

theorem getLast_cons_cons_append_singleton {α : Type} (a b d : α) (l : List α) :
    (a :: b :: (l ++ [d])).getLast? = some d := by
  rw [show a :: b :: (l ++ [d]) = (a :: b :: l) ++ [d] by simp]
  exact List.getLast?_concat _

/-- C6: streaming event protocol.  A planning error yields exactly one
terminating `error` event; a search error yields `criteria` then one
terminating `error`; zero items yield `criteria`, `search_complete`,
`done` (all counts zero); otherwise the session is exactly one
`criteria`, one `search_complete`, one `result` event per item — with
1-based `index` assigned in verifier completion order and
`total = |items|` — and one final `done` whose `total_scanned` equals the
number of `result` events (`|items|`), with no `error` event. -/
theorem search_stream_protocol :
    (∀ rid q e searchOut completed verify doClassify validate,
        searchStream rid q (.error e) searchOut completed verify doClassify
          validate = [.error rid e]) ∧
    (∀ rid q cr e completed verify doClassify validate,
        searchStream rid q (.ok cr) (.error e) completed verify doClassify
          validate = [.criteria rid q cr, .error rid e]) ∧
    (∀ rid q cr completed verify doClassify validate,
        searchStream rid q (.ok cr) (.ok []) completed verify doClassify
          validate
          = [.criteria rid q cr,
             .searchComplete 0 cr.search_queries.length [],
             .done rid "no_results" 0 0 0 0]) ∧
    (∀ rid q cr items completed verify doClassify validate,
        items ≠ [] → completed.Perm items →
        ((searchStream rid q (.ok cr) (.ok items) completed verify doClassify
            validate).countP isCriteriaEvt = 1 ∧
         (searchStream rid q (.ok cr) (.ok items) completed verify doClassify
            validate).countP isSearchCompleteEvt = 1 ∧
         (searchStream rid q (.ok cr) (.ok items) completed verify doClassify
            validate).countP isDoneEvt = 1 ∧
         (searchStream rid q (.ok cr) (.ok items) completed verify doClassify
            validate).countP isErrorEvt = 0 ∧
         (searchStream rid q (.ok cr) (.ok items) completed verify doClassify
            validate).countP isResultEvt = items.length) ∧
        (searchStream rid q (.ok cr) (.ok items) completed verify doClassify
            validate).length = items.length + 3 ∧
        (searchStream rid q (.ok cr) (.ok items) completed verify doClassify
            validate)[0]? = some (.criteria rid q cr) ∧
        (searchStream rid q (.ok cr) (.ok items) completed verify doClassify
            validate)[1]?
          = some (.searchComplete items.length cr.search_queries.length items) ∧
        (∀ i, i < items.length → ∃ payload,
          (searchStream rid q (.ok cr) (.ok items) completed verify doClassify
              validate)[2 + i]?
            = some (.result (i + 1) items.length payload)) ∧
        (∃ pc pt rc,
          (searchStream rid q (.ok cr) (.ok items) completed verify doClassify
              validate).getLast?
            = some (.done rid "completed" items.length pc pt rc))) := by
  refine ⟨fun _ _ _ _ _ _ _ _ => rfl, fun _ _ _ _ _ _ _ _ => rfl,
    fun _ _ _ _ _ _ _ => rfl, ?_⟩
  intro rid q cr items completed verify doClassify validate hne hperm
  have hni : ¬ items.isEmpty = true := by simpa [List.isEmpty_iff] using hne
  have hlen : completed.length = items.length := hperm.length_eq
  unfold searchStream
  dsimp only
  rw [if_neg hni]
  have hresult : ∀ e ∈ (completed.enumFrom 1).map (fun p =>
      StreamEvt.result p.1 items.length
        (if doClassify then
          .inl (classify p.2
            (if verify then validate p.2 else fallbackValidation cr.criteria)
            cr.criteria)
         else .inr ⟨p.2,
          if verify then validate p.2 else fallbackValidation cr.criteria⟩)),
      isResultEvt e = true ∧ isCriteriaEvt e = false ∧
      isSearchCompleteEvt e = false ∧ isDoneEvt e = false ∧
      isErrorEvt e = false := by
    intro e he
    obtain ⟨p, -, rfl⟩ := List.mem_map.mp he
    exact ⟨rfl, rfl, rfl, rfl, rfl⟩
  have hmlen : ((completed.enumFrom 1).map (fun p =>
      StreamEvt.result p.1 items.length
        (if doClassify then
          .inl (classify p.2
            (if verify then validate p.2 else fallbackValidation cr.criteria)
            cr.criteria)
         else .inr ⟨p.2,
          if verify then validate p.2 else fallbackValidation cr.criteria⟩))).length
      = items.length := by
    rw [List.length_map, List.enumFrom_length, hlen]
  refine ⟨⟨?_, ?_, ?_, ?_, ?_⟩, ?_, ?_, ?_, ?_, ?_⟩
  · simp [List.countP_cons, isCriteriaEvt, isSearchCompleteEvt, isDoneEvt,
      isErrorEvt, isResultEvt, Function.comp, hlen]
  · simp [List.countP_cons, isCriteriaEvt, isSearchCompleteEvt, isDoneEvt,
      isErrorEvt, isResultEvt, Function.comp, hlen]
  · simp [List.countP_cons, isCriteriaEvt, isSearchCompleteEvt, isDoneEvt,
      isErrorEvt, isResultEvt, Function.comp, hlen]
  · simp [List.countP_cons, isCriteriaEvt, isSearchCompleteEvt, isDoneEvt,
      isErrorEvt, isResultEvt, Function.comp, hlen]
  · simp [List.countP_cons, isCriteriaEvt, isSearchCompleteEvt, isDoneEvt,
      isErrorEvt, isResultEvt, Function.comp, hlen]
    rw [List.countP_eq_length.mpr ?hall]
    case hall =>
      intro a ha
      simp [isResultEvt]
    all_goals simp [hlen]
  · simp only [List.length_cons, List.length_append, List.length_map,
      List.enumFrom_length, hlen, List.length_nil]
  · rfl
  · simp
  · intro i hi
    have hiM : i < ((completed.enumFrom 1).map (fun p =>
        StreamEvt.result p.1 items.length
          (if doClassify then
            .inl (classify p.2
              (if verify then validate p.2 else fallbackValidation cr.criteria)
              cr.criteria)
           else .inr ⟨p.2,
            if verify then validate p.2 else fallbackValidation cr.criteria⟩))).length := by
      rw [hmlen]; exact hi
    have hic : i < completed.length := by rw [hlen]; exact hi
    refine ⟨(if doClassify then
        .inl (classify completed[i]
          (if verify then validate completed[i]
           else fallbackValidation cr.criteria) cr.criteria)
       else .inr ⟨completed[i],
        if verify then validate completed[i]
        else fallbackValidation cr.criteria⟩), ?_⟩
    have hidx : 2 + i = (i + 1) + 1 := by omega
    rw [hidx]
    rw [List.getElem?_cons_succ]
    rw [List.getElem?_cons_succ]
    rw [List.getElem?_append_left hiM]
    rw [List.getElem?_map]
    rw [List.getElem?_enumFrom]
    rw [List.getElem?_eq_getElem hic]
    simp [Nat.add_comm 1 i]
  · exact ⟨_, _, _, getLast_cons_cons_append_singleton _ _ _ _⟩

/-- Witness for `search_stream_protocol`: a concrete two-item session
whose completion order is the reverse of retrieval order. -/
theorem search_stream_protocol_witness :
    ((searchStream "req_1" "q" (.ok (createSimpleResult "q"))
        (.ok [{ title := "A" }, { title := "B" }])
        [{ title := "B" }, { title := "A" }] false true
        (fun _ => { criteria_assessment := [], summary := "" })).countP
          isCriteriaEvt = 1 ∧
     (searchStream "req_1" "q" (.ok (createSimpleResult "q"))
        (.ok [{ title := "A" }, { title := "B" }])
        [{ title := "B" }, { title := "A" }] false true
        (fun _ => { criteria_assessment := [], summary := "" })).countP
          isSearchCompleteEvt = 1 ∧
     (searchStream "req_1" "q" (.ok (createSimpleResult "q"))
        (.ok [{ title := "A" }, { title := "B" }])
        [{ title := "B" }, { title := "A" }] false true
        (fun _ => { criteria_assessment := [], summary := "" })).countP
          isDoneEvt = 1 ∧
     (searchStream "req_1" "q" (.ok (createSimpleResult "q"))
        (.ok [{ title := "A" }, { title := "B" }])
        [{ title := "B" }, { title := "A" }] false true
        (fun _ => { criteria_assessment := [], summary := "" })).countP
          isErrorEvt = 0 ∧
     (searchStream "req_1" "q" (.ok (createSimpleResult "q"))
        (.ok [{ title := "A" }, { title := "B" }])
        [{ title := "B" }, { title := "A" }] false true
        (fun _ => { criteria_assessment := [], summary := "" })).countP
          isResultEvt = 2) ∧
    (searchStream "req_1" "q" (.ok (createSimpleResult "q"))
        (.ok [{ title := "A" }, { title := "B" }])
        [{ title := "B" }, { title := "A" }] false true
        (fun _ => { criteria_assessment := [], summary := "" })).length
      = 2 + 3 ∧
    (searchStream "req_1" "q" (.ok (createSimpleResult "q"))
        (.ok [{ title := "A" }, { title := "B" }])
        [{ title := "B" }, { title := "A" }] false true
        (fun _ => { criteria_assessment := [], summary := "" }))[0]?
      = some (.criteria "req_1" "q" (createSimpleResult "q")) ∧
    (searchStream "req_1" "q" (.ok (createSimpleResult "q"))
        (.ok [{ title := "A" }, { title := "B" }])
        [{ title := "B" }, { title := "A" }] false true
        (fun _ => { criteria_assessment := [], summary := "" }))[1]?
      = some (.searchComplete 2 (createSimpleResult "q").search_queries.length
          [{ title := "A" }, { title := "B" }]) ∧
    (∀ i, i < ([{ title := "A" }, { title := "B" }] :
          List ResultItem).length → ∃ payload,
      (searchStream "req_1" "q" (.ok (createSimpleResult "q"))
          (.ok [{ title := "A" }, { title := "B" }])
          [{ title := "B" }, { title := "A" }] false true
          (fun _ => { criteria_assessment := [], summary := "" }))[2 + i]?
        = some (.result (i + 1) 2 payload)) ∧
    (∃ pc pt rc,
      (searchStream "req_1" "q" (.ok (createSimpleResult "q"))
          (.ok [{ title := "A" }, { title := "B" }])
          [{ title := "B" }, { title := "A" }] false true
          (fun _ => { criteria_assessment := [], summary := "" })).getLast?
        = some (.done "req_1" "completed" 2 pc pt rc)) := by
  have h := search_stream_protocol.2.2.2 "req_1" "q" (createSimpleResult "q")
    [{ title := "A" }, { title := "B" }] [{ title := "B" }, { title := "A" }]
    false true (fun _ => { criteria_assessment := [], summary := "" })
    (by simp) (by decide)
  exact h

/-! ## LLM gateway JSON handling (`core/llm/client.py`)

`json.loads` is embedded as a recursive-descent parser over the
character list; JSON values are a structural AST.  Modelling notes:
Python parses JSON numbers with a fraction or exponent (and the
constants `NaN`/`Infinity`/`-Infinity`) into floats — these are kept as
their raw lexeme (`numFloat`), since no claim compares distinct float
lexemes; `\uXXXX` escapes outside the Unicode scalar range fall back to
`Char.ofNat`'s default; whitespace classes are ASCII. -/

/-- A parsed JSON value (`json.loads` result).  Integer literals are
Python ints; any number with a fraction, exponent or constant form is a
Python float, kept as its lexeme. -/
inductive Json where
  | null
  | bool (b : Bool)
  | numInt (n : ℤ)
  | numFloat (lexeme : String)
  | str (s : String)
  | arr (xs : List Json)
  | obj (kvs : List (String × Json))

def quoteChar : Char := Char.ofNat 34
def backslashChar : Char := Char.ofNat 92
def lbraceChar : Char := Char.ofNat 123
def rbraceChar : Char := Char.ofNat 125
def backtickChar : Char := Char.ofNat 96

/-- JSON whitespace (RFC 8259 / Python `json`): space, tab, newline,
carriage return. -/
def isJsonWs (c : Char) : Bool :=
  c = ' ' || c = '\t' || c = '\n' || c = '\r'

def skipJsonWs (cs : List Char) : List Char := cs.dropWhile isJsonWs

def isDigitChar (c : Char) : Bool := '0' ≤ c && c ≤ '9'

def digitVal (c : Char) : ℕ := c.toNat - '0'.toNat

def digitsToNat (ds : List Char) : ℕ :=
  ds.foldl (fun acc c => acc * 10 + digitVal c) 0

def isHexChar (c : Char) : Bool :=
  isDigitChar c || ('a' ≤ c && c ≤ 'f') || ('A' ≤ c && c ≤ 'F')

def hexVal (c : Char) : ℕ :=
  if isDigitChar c then digitVal c
  else if 'a' ≤ c && c ≤ 'f' then c.toNat - 'a'.toNat + 10
  else c.toNat - 'A'.toNat + 10

/-- JSON string body after the opening quote: collect characters until
the closing quote, decoding escapes; Python (strict mode) rejects raw
control characters and invalid escapes. -/
def parseStringBody : List Char → List Char → Option (String × List Char)
  | _, [] => none
  | acc, c :: rest =>
      if c = quoteChar then some (String.mk acc.reverse, rest)
      else if c = backslashChar then
        match rest with
        | [] => none
        | e :: rest2 =>
          if e = quoteChar then parseStringBody (quoteChar :: acc) rest2
          else if e = backslashChar then parseStringBody (backslashChar :: acc) rest2
          else if e = '/' then parseStringBody ('/' :: acc) rest2
          else if e = 'b' then parseStringBody (Char.ofNat 8 :: acc) rest2
          else if e = 'f' then parseStringBody (Char.ofNat 12 :: acc) rest2
          else if e = 'n' then parseStringBody ('\n' :: acc) rest2
          else if e = 'r' then parseStringBody ('\r' :: acc) rest2
          else if e = 't' then parseStringBody ('\t' :: acc) rest2
          else if e = 'u' then
            match rest2 with
            | h1 :: h2 :: h3 :: h4 :: rest3 =>
              if isHexChar h1 && isHexChar h2 && isHexChar h3 && isHexChar h4 then
                parseStringBody
                  (Char.ofNat (((hexVal h1 * 16 + hexVal h2) * 16 + hexVal h3) * 16
                    + hexVal h4) :: acc) rest3
              else none
            | _ => none
          else none
      else if c.toNat < 32 then none
      else parseStringBody (c :: acc) rest
termination_by _ cs => cs.length
decreasing_by all_goals (simp_all [List.length_cons]) <;> omega

/-- JSON number: `-? (0 | [1-9][0-9]*) frac? exp?`.  Returns the value
and the rest.  An integer literal becomes `numInt`; any fraction or
exponent keeps the whole lexeme as `numFloat`. -/
def parseNumber (cs : List Char) : Option (Json × List Char) :=
  let (neg, cs1) := match cs with
    | c :: rest => if c = '-' then (true, rest) else (false, cs)
    | [] => (false, cs)
  let intDigits := cs1.takeWhile isDigitChar
  let cs2 := cs1.drop intDigits.length
  if intDigits.isEmpty then none
  else if 1 < intDigits.length ∧ intDigits.head? = some '0' then none
  else
    let (fracDigits, cs3) := match cs2 with
      | c :: rest =>
        if c = '.' then
          let fd := rest.takeWhile isDigitChar
          (some fd, rest.drop fd.length)
        else (none, cs2)
      | [] => (none, cs2)
    match fracDigits with
    | some fd =>
      if fd.isEmpty then none
      else
        match parseExpPart cs3 with
        | none => none
        | some (_, cs4) =>
          some (.numFloat (String.mk (cs.take (cs.length - cs4.length))), cs4)
    | none =>
      match cs3 with
      | c :: _ =>
        if c = 'e' ∨ c = 'E' then
          match parseExpPart cs3 with
          | none => none
          | some (_, cs4) =>
            some (.numFloat (String.mk (cs.take (cs.length - cs4.length))), cs4)
        else
          some (.numInt (if neg then -(digitsToNat intDigits : ℤ)
            else (digitsToNat intDigits : ℤ)), cs3)
      | [] =>
        some (.numInt (if neg then -(digitsToNat intDigits : ℤ)
          else (digitsToNat intDigits : ℤ)), cs3)
where
  /-- Optional exponent part; `none` means a malformed exponent,
  `some ([], cs)` means no exponent present. -/
  parseExpPart (cs : List Char) : Option (List Char × List Char) :=
    match cs with
    | c :: rest =>
      if c = 'e' ∨ c = 'E' then
        let (_, rest2) := match rest with
          | s :: r2 => if s = '+' ∨ s = '-' then (true, r2) else (false, rest)
          | [] => (false, rest)
        let ed := rest2.takeWhile isDigitChar
        if ed.isEmpty then none else some (ed, rest2.drop ed.length)
      else some ([], cs)
    | [] => some ([], cs)

mutual

/-- One JSON value (whitespace already skipped by the caller). -/
def parseValue (fuel : ℕ) (cs : List Char) : Option (Json × List Char) :=
  match fuel with
  | 0 => none
  | fuel + 1 =>
    match cs with
    | [] => none
    | c :: rest =>
      if c = 'n' then
        match rest with
        | 'u' :: 'l' :: 'l' :: rest2 => some (.null, rest2)
        | _ => none
      else if c = 't' then
        match rest with
        | 'r' :: 'u' :: 'e' :: rest2 => some (.bool true, rest2)
        | _ => none
      else if c = 'f' then
        match rest with
        | 'a' :: 'l' :: 's' :: 'e' :: rest2 => some (.bool false, rest2)
        | _ => none
      else if c = 'N' then
        match rest with
        | 'a' :: 'N' :: rest2 => some (.numFloat "NaN", rest2)
        | _ => none
      else if c = 'I' then
        match rest with
        | 'n' :: 'f' :: 'i' :: 'n' :: 'i' :: 't' :: 'y' :: rest2 =>
          some (.numFloat "Infinity", rest2)
        | _ => none
      else if c = '-' ∧ rest.head? = some 'I' then
        match rest with
        | 'I' :: 'n' :: 'f' :: 'i' :: 'n' :: 'i' :: 't' :: 'y' :: rest2 =>
          some (.numFloat "-Infinity", rest2)
        | _ => none
      else if c = quoteChar then
        match parseStringBody [] rest with
        | some (s, rest2) => some (.str s, rest2)
        | none => none
      else if c = '[' then
        match skipJsonWs rest with
        | ']' :: rest2 => some (.arr [], rest2)
        | rest2 =>
          match parseArrayItems fuel rest2 with
          | some (xs, rest3) => some (.arr xs, rest3)
          | none => none
      else if c = lbraceChar then
        match skipJsonWs rest with
        | d :: rest2 =>
          if d = rbraceChar then some (.obj [], rest2)
          else
            match parseObjectItems fuel (d :: rest2) with
            | some (kvs, rest3) => some (.obj kvs, rest3)
            | none => none
        | [] => none
      else if c = '-' ∨ isDigitChar c then parseNumber (c :: rest)
      else none

/-- Array items after `[` (first item's leading whitespace skipped). -/
def parseArrayItems (fuel : ℕ) (cs : List Char) : Option (List Json × List Char) :=
  match fuel with
  | 0 => none
  | fuel + 1 =>
    match parseValue fuel (skipJsonWs cs) with
    | none => none
    | some (v, rest) =>
      match skipJsonWs rest with
      | ',' :: rest2 =>
        match parseArrayItems fuel rest2 with
        | some (xs, rest3) => some (v :: xs, rest3)
        | none => none
      | ']' :: rest2 => some ([v], rest2)
      | _ => none

/-- Object members after `{`. -/
def parseObjectItems (fuel : ℕ) (cs : List Char) : Option (List (String × Json) × List Char) :=
  match fuel with
  | 0 => none
  | fuel + 1 =>
    match skipJsonWs cs with
    | c :: rest =>
      if c = quoteChar then
        match parseStringBody [] rest with
        | none => none
        | some (k, rest2) =>
          match skipJsonWs rest2 with
          | ':' :: rest3 =>
            match parseValue fuel (skipJsonWs rest3) with
            | none => none
            | some (v, rest4) =>
              match skipJsonWs rest4 with
              | ',' :: rest5 =>
                match parseObjectItems fuel rest5 with
                | some (kvs, rest6) => some ((k, v) :: kvs, rest6)
                | none => none
              | d :: rest5 =>
                if d = rbraceChar then some ([(k, v)], rest5) else none
              | [] => none
          | _ => none
      else none
    | [] => none

end

/-- `json.loads`: parse one value, allow surrounding whitespace, reject
trailing content. -/
def jsonParse (s : String) : Option Json :=
  match parseValue (s.length + 1) (skipJsonWs s.data) with
  | some (v, rest) => if (skipJsonWs rest).isEmpty then some v else none
  | none => none

/-! ### `LLMClient._repair_json`

Each `re.sub` with a constant pattern is embedded as the equivalent
left-to-right non-overlapping scan.  Python's `\s` and `str.strip` are
modelled over ASCII whitespace. -/

/-- `\s` (ASCII): space, tab, newline, carriage return, form feed,
vertical tab. -/
def isPyWs (c : Char) : Bool :=
  c = ' ' || c = '\t' || c = '\n' || c = '\r' || c = Char.ofNat 12 ||
    c = Char.ofNat 11

/-- `text.find("{")` + slice: drop everything before the first brace;
`None` when there is no brace. -/
def dropUntilBrace : List Char → Option (List Char)
  | [] => none
  | c :: rest =>
      if c = lbraceChar then some (c :: rest) else dropUntilBrace rest

/-- `text.count(c)` for a single character. -/
def countChar (c : Char) (cs : List Char) : ℕ := (cs.filter (· = c)).length

/-- `str.rstrip()`. -/
def rstripWs (cs : List Char) : List Char :=
  (cs.reverse.dropWhile Char.isWhitespace).reverse

/-- `str.rstrip(",")`. -/
def rstripComma (cs : List Char) : List Char :=
  (cs.reverse.dropWhile (· = ',')).reverse

/-- `re.sub(r",\s*([}\]])", r"\1", text)`: delete a comma (and the
whitespace after it) immediately before a closing brace or bracket. -/
def removeTrailingCommas : List Char → List Char
  | [] => []
  | c :: rest =>
      if c = ',' then
        match h : rest.drop (rest.takeWhile isPyWs).length with
        | d :: rest2 =>
          if d = rbraceChar ∨ d = ']' then d :: removeTrailingCommas rest2
          else c :: removeTrailingCommas rest
        | [] => c :: removeTrailingCommas rest
      else c :: removeTrailingCommas rest
termination_by cs => cs.length
decreasing_by
  all_goals simp_all
  have := congrArg List.length h
  simp [List.length_drop] at this
  omega

/-- `text.replace("\t", "\\t")`. -/
def replaceTab (cs : List Char) : List Char :=
  cs.flatMap (fun c => if c = '\t' then [backslashChar, 't'] else [c])

/-- Split a whitespace run at its last newline:
`(before the last newline, after it)`. -/
def splitAtLastNl (ws : List Char) : List Char × List Char :=
  let post := ws.reverse.takeWhile (· ≠ '\n')
  (ws.take (ws.length - post.length - 1), post.reverse)

/-- `re.sub(r'("\s*)\n(\s*")', r"\1,\n\2", text)`: between a closing
quote and the next opening quote separated only by whitespace containing
a newline, insert a comma before the run's last newline (the greedy
`\s*` in group 1 takes the whitespace up to that newline). -/
def insertCommaQuoteNlQuote : List Char → List Char
  | [] => []
  | c :: rest =>
      if c = quoteChar then
        match h : rest.drop (rest.takeWhile isPyWs).length with
        | d :: rest2 =>
          if d = quoteChar ∧ '\n' ∈ rest.takeWhile isPyWs then
            let pre := (splitAtLastNl (rest.takeWhile isPyWs)).1
            let post := (splitAtLastNl (rest.takeWhile isPyWs)).2
            quoteChar :: (pre ++ [','] ++ ['\n'] ++ post ++ [quoteChar]) ++
              insertCommaQuoteNlQuote rest2
          else quoteChar :: insertCommaQuoteNlQuote rest
        | [] => quoteChar :: insertCommaQuoteNlQuote rest
      else c :: insertCommaQuoteNlQuote rest
termination_by cs => cs.length
decreasing_by
  all_goals simp_all
  have := congrArg List.length h
  simp [List.length_drop] at this
  omega

/-- `re.sub(r"(a)\s*(b)", r"\1,\2", text)` for single characters `a`,
`b` (used with `}`/`{`, `]`/`[`, `"`/`{`, `}`/`"`): insert a comma and
delete the whitespace between them. -/
def insertCommaBetween (a b : Char) : List Char → List Char
  | [] => []
  | c :: rest =>
      if c = a then
        match h : rest.drop (rest.takeWhile isPyWs).length with
        | d :: rest2 =>
          if d = b then a :: ',' :: b :: insertCommaBetween a b rest2
          else c :: insertCommaBetween a b rest
        | [] => c :: insertCommaBetween a b rest
      else c :: insertCommaBetween a b rest
termination_by cs => cs.length
decreasing_by
  all_goals simp_all
  have := congrArg List.length h
  simp [List.length_drop] at this
  omega

/-- `_repair_json._escape_newlines_in_strings`: walk the text tracking
whether the position is inside an unescaped string; replace literal
newlines inside strings with `\n`. -/
def escapeNlAux : Bool → Bool → List Char → List Char
  | _, _, [] => []
  | inString, escaped, c :: rest =>
      if escaped then c :: escapeNlAux inString false rest
      else if c = backslashChar then backslashChar :: escapeNlAux inString true rest
      else
        let ins := if c = quoteChar then !inString else inString
        if ins ∧ c = '\n' then
          backslashChar :: 'n' :: escapeNlAux ins false rest
        else c :: escapeNlAux ins false rest

/-- `LLMClient._repair_json`. -/
def repairJson (text : String) : Option Json :=
  match dropUntilBrace text.data with
  | none => none
  | some cs0 =>
    let openB : ℤ := (countChar lbraceChar cs0 : ℤ) - (countChar rbraceChar cs0 : ℤ)
    let openSq : ℤ := (countChar '[' cs0 : ℤ) - (countChar ']' cs0 : ℤ)
    let cs1 :=
      if 0 < openB ∨ 0 < openSq then
        rstripComma (rstripWs cs0) ++ List.replicate (max openSq 0).toNat ']'
          ++ List.replicate (max openB 0).toNat rbraceChar
      else cs0
    let cs3 := replaceTab (removeTrailingCommas cs1)
    match jsonParse (String.mk cs3) with
    | some v => some v
    | none =>
      let cs8 := insertCommaBetween rbraceChar quoteChar
        (insertCommaBetween quoteChar lbraceChar
          (insertCommaBetween ']' '['
            (insertCommaBetween rbraceChar lbraceChar
              (insertCommaQuoteNlQuote cs3))))
      match jsonParse (String.mk cs8) with
      | some v => some v
      | none => jsonParse (String.mk (escapeNlAux false false cs8))

/-- `chat_json`'s parse step after the HTTP call and
`_strip_code_fences`: `json.loads`, and only on a `JSONDecodeError`,
`_repair_json`. -/
def parseOrRepair (content : String) : Option Json :=
  match jsonParse content with
  | some v => some v
  | none => repairJson content

theorem dropUntilBrace_eq_none (cs : List Char)
    (h : ∀ c ∈ cs, c ≠ lbraceChar) : dropUntilBrace cs = none := by
  induction cs with
  | nil => rfl
  | cons c rest ih =>
      rw [dropUntilBrace, if_neg (h c (List.mem_cons_self c rest))]
      exact ih (fun d hd => h d (List.mem_cons_of_mem c hd))

/-- C4 (counterexample): `"[1, 2]"` is valid JSON (it parses to the
two-element array), but `_repair_json` applied to it fails — its first
step finds no `"{"` and returns `None`. -/
theorem json_repair_counterexample :
    jsonParse "[1, 2]" = some (.arr [.numInt 1, .numInt 2]) ∧
    repairJson "[1, 2]" = none :=
  ⟨rfl, rfl⟩

/-- C4 (amended): the client's JSON-reading step (`json.loads`, with
`_repair_json` only on parse failure) is the identity on valid JSON —
when `s` parses, the repair branch is never taken and the parsed value
is returned; the repair function itself fails on any input containing no
`"{"` (in particular on valid non-object JSON). -/
theorem json_parse_repair_amended :
    (∀ s v, jsonParse s = some v → parseOrRepair s = some v) ∧
    (∀ s : String, (∀ c ∈ s.data, c ≠ lbraceChar) → repairJson s = none) := by
  constructor
  · intro s v h
    unfold parseOrRepair
    rw [h]
  · intro s hs
    unfold repairJson
    rw [dropUntilBrace_eq_none s.data hs]

/-- Witness for `json_parse_repair_amended` at the concrete valid JSON
array. -/
theorem json_parse_repair_amended_witness :
    parseOrRepair "[1, 2]" = some (.arr [.numInt 1, .numInt 2]) :=
  json_parse_repair_amended.1 "[1, 2]" (.arr [.numInt 1, .numInt 2]) rfl

/-- Witness for `classifier_empty_assessments` at a concrete input. -/
theorem classifier_empty_assessments_witness :
    (classify {} { criteria_assessment := [], summary := "" }
        [{ criterion_id := "criterion_1", type := "topic", name := "T",
           description := "", weight := 1 }]).classification = .reject ∧
    (classify {} { criteria_assessment := [], summary := "" }
        [{ criterion_id := "criterion_1", type := "topic", name := "T",
           description := "", weight := 1 }]).weighted_score = 0 :=
  classifier_empty_assessments {} { criteria_assessment := [], summary := "" }
    [{ criterion_id := "criterion_1", type := "topic", name := "T",
       description := "", weight := 1 }] rfl

end OpenSift
